import Mathlib

/-!
Verification development for the collector request broker.

The definitions below are a shallow embedding of the Go sources:
the protobuf message shapes (proto/collector.proto and the field accesses
in main.go), the validator functions of main.go, the work queue of
queue.go, and the server state shared by the gRPC Collect method and the
HTTP handlers of handlers.go.

Modelling conventions:
- Go pointers that may be nil become Option.
- Go errors become Except String / explicit result inductives; error
  strings follow the source (apostrophes elided).
- int32 / int64 fields become Int (the validator bounds-checks before any
  arithmetic that could overflow, so exact integers are faithful).
- float64 values become FloatVal: NaN, signed infinity, or an exact
  rational; comparisons follow IEEE semantics (NaN compares false).
- The queue struct holds a linked list plus an id-keyed map that every
  operation keeps in sync with the list (Enqueue rejects duplicate ids and
  each mutation updates both); the embedding stores the list alone and
  performs the map lookups by id on the list.
- Goroutine channels: each collect call owns one capacity-1 reply channel;
  the embedding keys channel states by the item id in the server state.
- Blocking (GetNext wait loop, the select in Collect) is modelled by
  exposing each resumption as its own function on the server state.
-/

namespace Collector

/-- Model of a float64 value: NaN, an infinity (neg = true for negative
infinity), or a finite value represented exactly as a rational. -/
inductive FloatVal
  | nan
  | inf (neg : Bool)
  | fin (q : Rat)
deriving DecidableEq

/-- IEEE less-than: any comparison with NaN is false. -/
def FloatVal.lt : FloatVal → FloatVal → Bool
  | .fin a, .fin b => decide (a < b)
  | .fin _, .inf neg => !neg
  | .inf neg, .fin _ => neg
  | .inf true, .inf false => true
  | _, _ => false

/-- IEEE greater-or-equal: false whenever NaN is involved. -/
def FloatVal.ge (a b : FloatVal) : Bool :=
  FloatVal.lt b a ||
    (match a, b with
     | .fin x, .fin y => decide (x = y)
     | .inf n1, .inf n2 => n1 == n2
     | _, _ => false)

/-- Go math.IsNaN. -/
def FloatVal.isNaN : FloatVal → Bool
  | .nan => true
  | _ => false

/-- Go math.IsInf(v, 0). -/
def FloatVal.isInf : FloatVal → Bool
  | .inf _ => true
  | _ => false

/-- Protobuf message Ints. -/
structure IntsPB where
  values : List Int
deriving DecidableEq

/-- Protobuf message Floats. -/
structure FloatsPB where
  values : List FloatVal
deriving DecidableEq

/-- Oneof Data.data; each arm carries a possibly-nil message pointer. -/
inductive DataOneof
  | ints (v : Option IntsPB)
  | floats (v : Option FloatsPB)
deriving DecidableEq

/-- Protobuf message Data. -/
structure DataPB where
  data : Option DataOneof
deriving DecidableEq

/-- Protobuf message Grid. -/
structure GridPB where
  rows : Int
  cols : Int
deriving DecidableEq

/-- Protobuf message MultiChannelGrid. -/
structure MultiChannelGridPB where
  rows : Int
  cols : Int
  channels : Int
  channelNames : List String
deriving DecidableEq

/-- Protobuf message Scalar. -/
structure ScalarPB where
  label : String
  min : FloatVal
  max : FloatVal
  unit : String
deriving DecidableEq

/-- Protobuf message Vector2D. -/
structure Vector2DPB where
  label : String
  maxMagnitude : FloatVal
deriving DecidableEq

/-- Protobuf message TimeSeries. -/
structure TimeSeriesPB where
  label : String
  points : Int
  minValue : FloatVal
  maxValue : FloatVal
deriving DecidableEq

/-- Oneof Input.visualization. -/
inductive VisualizationOneof
  | grid (g : Option GridPB)
  | multiGrid (g : Option MultiChannelGridPB)
  | scalar (s : Option ScalarPB)
  | vector (v : Option Vector2DPB)
  | timeSeries (t : Option TimeSeriesPB)
deriving DecidableEq

/-- Protobuf message Input. -/
structure InputPB where
  visualization : Option VisualizationOneof
  data : Option DataPB
deriving DecidableEq

/-- Protobuf message Option (an output choice). -/
structure OptionPB where
  label : String
  hotkey : String
deriving DecidableEq

/-- Protobuf message OptionListSchema; elements are pointers and may be nil. -/
structure OptionListSchemaPB where
  options : List (Option OptionPB)
deriving DecidableEq

/-- Oneof OutputSchema.output. -/
inductive OutputOneof
  | optionList (ol : Option OptionListSchemaPB)
deriving DecidableEq

/-- Protobuf message OutputSchema. -/
structure OutputSchemaPB where
  output : Option OutputOneof
deriving DecidableEq

/-- Protobuf message Request. -/
structure RequestPB where
  inputs : List (Option InputPB)
  output : Option OutputSchemaPB
deriving DecidableEq

/-- Protobuf message OptionListOutput. -/
structure OptionListOutputPB where
  index : Int
deriving DecidableEq

/-- Oneof Output.output in the response message. -/
inductive OutputRespOneof
  | optionList (o : Option OptionListOutputPB)
deriving DecidableEq

/-- Protobuf message Response. -/
structure ResponsePB where
  output : Option OutputRespOneof
deriving DecidableEq

/-! Validator (main.go). Error strings follow the source; apostrophes and
printf number formatting are elided where Go uses them. -/

/-- Embeds validateGrid of main.go. -/
def validateGrid (grid : Option GridPB) (data : Option DataPB) : Except String Unit :=
  match grid with
  | none => .error "grid cannot be nil"
  | some g =>
    if g.rows ≤ 0 ∨ g.cols ≤ 0 then
      .error ("grid dimensions must be positive (got " ++ toString g.rows ++ "x" ++ toString g.cols ++ ")")
    else if g.rows > 100 ∨ g.cols > 100 then
      .error ("grid too large (max 100x100, got " ++ toString g.rows ++ "x" ++ toString g.cols ++ ")")
    else
      match data with
      | none => .error "data is required"
      | some d =>
        let expectedSize : Int := g.rows * g.cols
        match d.data with
        | some (.ints none) => .error "ints data cannot be nil"
        | some (.ints (some iv)) =>
          if (iv.values.length : Int) ≠ expectedSize then
            .error ("data size " ++ toString iv.values.length ++ " does not match grid size " ++ toString expectedSize)
          else .ok ()
        | some (.floats none) => .error "floats data cannot be nil"
        | some (.floats (some fv)) =>
          if (fv.values.length : Int) ≠ expectedSize then
            .error ("data size " ++ toString fv.values.length ++ " does not match grid size " ++ toString expectedSize)
          else .ok ()
        | none => .error "data type is required"

/-- Embeds validateMultiChannelGrid of main.go. -/
def validateMultiChannelGrid (grid : Option MultiChannelGridPB) (data : Option DataPB) :
    Except String Unit :=
  match grid with
  | none => .error "multi-channel grid cannot be nil"
  | some g =>
    if g.rows ≤ 0 ∨ g.cols ≤ 0 then
      .error "grid dimensions must be positive"
    else if g.rows > 100 ∨ g.cols > 100 then
      .error "grid too large (max 100x100)"
    else if g.channels ≤ 0 then
      .error "channel count must be positive"
    else if g.channels > 10 then
      .error "too many channels (max 10)"
    else if g.channelNames.length > 0 ∧ (g.channelNames.length : Int) ≠ g.channels then
      .error "channel names count does not match channel count"
    else
      match data with
      | none => .error "data is required"
      | some d =>
        let expectedSize : Int := g.rows * g.cols * g.channels
        match d.data with
        | some (.ints none) => .error "ints data cannot be nil"
        | some (.ints (some iv)) =>
          if (iv.values.length : Int) ≠ expectedSize then
            .error "data size does not match expected size"
          else .ok ()
        | some (.floats none) => .error "floats data cannot be nil"
        | some (.floats (some fv)) =>
          if (fv.values.length : Int) ≠ expectedSize then
            .error "data size does not match expected size"
          else .ok ()
        | none => .error "data type is required"

/-- Embeds validateScalar of main.go. The value-in-range test uses the IEEE
comparison model, so a NaN value passes here exactly as it does in Go (it is
rejected later by validateData). -/
def validateScalar (scalar : Option ScalarPB) (data : Option DataPB) : Except String Unit :=
  match scalar with
  | none => .error "scalar cannot be nil"
  | some sc =>
    if sc.label = "" then .error "scalar label is required"
    else if FloatVal.ge sc.min sc.max then
      .error "scalar min must be less than max"
    else
      match data with
      | none => .error "data is required"
      | some d =>
        match d.data with
        | some (.floats none) => .error "floats data cannot be nil"
        | some (.floats (some fv)) =>
          if fv.values.length ≠ 1 then
            .error "scalar requires exactly 1 float value"
          else
            match fv.values with
            | [value] =>
              if FloatVal.lt value sc.min || FloatVal.lt sc.max value then
                .error "scalar value is outside range"
              else .ok ()
            | _ => .error "scalar requires exactly 1 float value"
        | _ => .error "scalar visualization requires float data"

/-- Magnitude test of validateVector2D: whether sqrt(x*x + y*y) exceeds m.
Squares are compared instead of taking the square root; over exact reals the
two tests agree, and NaN or infinite operands follow IEEE semantics as in Go. -/
def magnitudeExceeds (x y m : FloatVal) : Bool :=
  match x, y, m with
  | .nan, _, _ => false
  | _, .nan, _ => false
  | _, _, .nan => false
  | .inf _, _, .inf neg => neg
  | _, .inf _, .inf neg => neg
  | .inf _, _, .fin _ => true
  | _, .inf _, .fin _ => true
  | .fin _, .fin _, .inf neg => neg
  | .fin a, .fin b, .fin r => if r < 0 then true else decide (a * a + b * b > r * r)

/-- Embeds validateVector2D of main.go; the sqrt comparison is modelled by
magnitudeExceeds. -/
def validateVector2D (vector : Option Vector2DPB) (data : Option DataPB) : Except String Unit :=
  match vector with
  | none => .error "vector cannot be nil"
  | some v =>
    if v.label = "" then .error "vector label is required"
    else if !FloatVal.lt (.fin 0) v.maxMagnitude then
      .error "vector max_magnitude must be positive"
    else
      match data with
      | none => .error "data is required"
      | some d =>
        match d.data with
        | some (.floats none) => .error "floats data cannot be nil"
        | some (.floats (some fv)) =>
          if fv.values.length ≠ 2 then
            .error "vector requires exactly 2 float values"
          else
            match fv.values with
            | [x, y] =>
              if magnitudeExceeds x y v.maxMagnitude then
                .error "vector magnitude exceeds max_magnitude"
              else .ok ()
            | _ => .error "vector requires exactly 2 float values"
        | _ => .error "vector visualization requires float data"

/-- Range scan of validateTimeSeries: first index whose value falls outside
the closed range, scanning left to right as the Go loop does. -/
def timeSeriesRangeViolation (vals : List FloatVal) (lo hi : FloatVal) : Bool :=
  vals.any (fun v => FloatVal.lt v lo || FloatVal.lt hi v)

/-- Embeds validateTimeSeries of main.go. -/
def validateTimeSeries (ts : Option TimeSeriesPB) (data : Option DataPB) : Except String Unit :=
  match ts with
  | none => .error "time series cannot be nil"
  | some t =>
    if t.label = "" then .error "time series label is required"
    else if t.points ≤ 0 then .error "time series points must be positive"
    else if t.points > 1000 then .error "time series has too many points (max 1000)"
    else if FloatVal.ge t.minValue t.maxValue then
      .error "time series min_value must be less than max_value"
    else
      match data with
      | none => .error "data is required"
      | some d =>
        match d.data with
        | some (.floats none) => .error "floats data cannot be nil"
        | some (.floats (some fv)) =>
          if (fv.values.length : Int) ≠ t.points then
            .error "data size does not match expected points"
          else if timeSeriesRangeViolation fv.values t.minValue t.maxValue then
            .error "time series value is outside range"
          else .ok ()
        | _ => .error "time series visualization requires float data"

/-- NaN / infinity scan of validateData over a float list. -/
def floatsFiniteViolation (vals : List FloatVal) : Bool :=
  vals.any (fun v => FloatVal.isNaN v || FloatVal.isInf v)

/-- Embeds validateData of main.go. -/
def validateData (data : Option DataPB) : Except String Unit :=
  match data with
  | none => .error "data cannot be nil"
  | some d =>
    match d.data with
    | some (.ints _) => .ok ()
    | some (.floats none) => .error "floats data cannot be nil"
    | some (.floats (some fv)) =>
      if floatsFiniteViolation fv.values then
        .error "float value is NaN or infinite"
      else .ok ()
    | none => .error "data type is required"

/-- Embeds validateInput of main.go (the index parameter is unused there too;
the caller adds the input index to the error). -/
def validateInput (input : Option InputPB) (_index : Nat) : Except String Unit :=
  match input with
  | none => .error "input cannot be nil"
  | some inp =>
    let tail :=
      match inp.visualization with
      | some (.grid g) => validateGrid g inp.data
      | some (.multiGrid g) => validateMultiChannelGrid g inp.data
      | some (.scalar sc) => validateScalar sc inp.data
      | some (.vector v) => validateVector2D v inp.data
      | some (.timeSeries t) => validateTimeSeries t inp.data
      | none => .error "visualization is required"
    match tail with
    | .error e => .error e
    | .ok _ => validateData inp.data

/-- Loop of validate over req.Inputs: first failing input aborts with its
index prefixed, as fmt.Errorf("input %d: %w", i, err) does. -/
def validateInputs : List (Option InputPB) → Nat → Except String Unit
  | [], _ => .ok ()
  | input :: rest, i =>
    match validateInput input i with
    | .error e => .error ("input " ++ toString i ++ ": " ++ e)
    | .ok _ => validateInputs rest (i + 1)

/-- Option loop of validateOutputSchema; seen carries the hotkeys recorded in
the Go map so far. Hotkey length is the Go byte length of the string. -/
def validateOptions : List (Option OptionPB) → Nat → List String → Except String Unit
  | [], _, _ => .ok ()
  | o :: rest, i, seen =>
    match o with
    | none => .error ("option " ++ toString i ++ " cannot be nil")
    | some opt =>
      if opt.label = "" then
        .error ("option " ++ toString i ++ " label cannot be empty")
      else if opt.hotkey.utf8ByteSize ≠ 1 then
        .error ("option " ++ toString i ++ " hotkey must be single character (got " ++ opt.hotkey ++ ")")
      else if opt.hotkey ∈ seen then
        .error ("duplicate hotkey " ++ opt.hotkey ++ " found at option " ++ toString i)
      else
        validateOptions rest (i + 1) (opt.hotkey :: seen)

/-- Embeds validateOutputSchema of main.go. -/
def validateOutputSchema (schema : Option OutputSchemaPB) : Except String Unit :=
  match schema with
  | none => .error "output schema is required"
  | some s =>
    match s.output with
    | some (.optionList none) => .error "option list cannot be nil"
    | some (.optionList (some ol)) =>
      if ol.options.length < 2 then
        .error ("option list must have at least 2 options (got " ++ toString ol.options.length ++ ")")
      else
        validateOptions ol.options 0 []
    | none => .error "output type is required"

/-- Embeds validate of main.go. -/
def validate (req : Option RequestPB) : Except String Unit :=
  match req with
  | none => .error "request cannot be nil"
  | some r =>
    if r.inputs.length = 0 then .error "request must have at least one input"
    else
      match validateInputs r.inputs 0 with
      | .error e => .error e
      | .ok _ =>
        match validateOutputSchema r.output with
        | .error e => .error ("output schema: " ++ e)
        | .ok _ => .ok ()

/-! Work queue (queue.go). A QueueItem bundles the id, the request pointer,
the arrival timestamp and the deferred flag; the reply channel owned by the
item is tracked in the server state under the item id, and the context is
modelled by explicit cancellation events. -/

/-- Embeds the QueueItem struct of queue.go (fields Response and Context are
modelled outside the item, see the module comment). -/
structure QueueItem where
  id : String
  request : Option RequestPB
  addedAt : Nat
  deferred : Bool
deriving DecidableEq

/-- Embeds the QueueStatus struct of queue.go. -/
structure QueueStatus where
  total : Nat
  active : Nat
  deferred : Nat
deriving DecidableEq

namespace Queue

/-- Embeds Queue.Enqueue: reject an id already present in itemsMap, otherwise
push the item at the back of the list and register it in the map. The waiter
notification only wakes blocked GetNext calls and moves no data. -/
def enqueue (item : QueueItem) (q : List QueueItem) : Except String (List QueueItem) :=
  if q.any (fun it => it.id = item.id) then
    .error ("item already in queue: " ++ item.id)
  else
    .ok (q ++ [item])

/-- Embeds Queue.Dequeue: scan from the front for the first item whose
deferred flag is clear, remove it from the list and the map, and return it;
with no such item the call fails. -/
def dequeue : List QueueItem → Except String (QueueItem × List QueueItem)
  | [] => .error "queue empty or all items deferred"
  | it :: rest =>
    if it.deferred then
      match dequeue rest with
      | .ok (x, rest1) => .ok (x, it :: rest1)
      | .error e => .error e
    else
      .ok (it, rest)

/-- Embeds Queue.Defer: look the id up in itemsMap (absent ids fail), set the
deferred flag of that item, and move its element to the back of the list. -/
def deferOp : String → List QueueItem → Except String (List QueueItem)
  | id, [] => .error ("item not found: " ++ id)
  | id, it :: rest =>
    if it.id = id then
      .ok (rest ++ [{ it with deferred := true }])
    else
      match deferOp id rest with
      | .ok q1 => .ok (it :: q1)
      | .error e => .error e

/-- Embeds Queue.Remove: look the id up in itemsMap (absent ids fail) and
unlink the element from the list and the map. -/
def remove : String → List QueueItem → Except String (List QueueItem)
  | id, [] => .error ("item not found: " ++ id)
  | id, it :: rest =>
    if it.id = id then
      .ok rest
    else
      match remove id rest with
      | .ok q1 => .ok (it :: q1)
      | .error e => .error e

/-- Embeds Queue.Status: walk the list once, counting deferred and
non-deferred items; Total is the list length. -/
def status (q : List QueueItem) : QueueStatus :=
  { total := q.length
    active := q.countP (fun it => !it.deferred)
    deferred := q.countP (fun it => it.deferred) }

/-- Embeds Queue.Clear: reset the list and the map. -/
def clear (_q : List QueueItem) : List QueueItem := []

/-- Embeds one resumption of the Queue.GetNext wait loop: each pass calls
Dequeue and returns its result on success; on failure GetNext blocks until a
waiter wake or the deadline, which the server model exposes as separate
events. -/
def getNextAttempt (q : List QueueItem) : Except String (QueueItem × List QueueItem) :=
  dequeue q

end Queue

/-! Server state (main.go, handlers.go): the queue, the current map holding
items handed to an operator, and the per-call reply channels. -/

/-- State of one capacity-1 reply channel: no value sent yet, or a value sent
and the channel closed by handleSubmit. Nothing in the source closes a
channel without sending first. -/
inductive ChanState
  | empty
  | delivered (v : ResponsePB)
deriving DecidableEq

/-- Go map read: first binding for the key. -/
def mapGet {α : Type} (k : String) : List (String × α) → Option α
  | [] => none
  | p :: rest => if p.1 = k then some p.2 else mapGet k rest

/-- Go map delete: drop every binding for the key (bindings are unique by
construction, so this is exactly the map delete). -/
def mapDelete {α : Type} (k : String) : List (String × α) → List (String × α)
  | [] => []
  | p :: rest => if p.1 = k then mapDelete k rest else p :: mapDelete k rest

/-- Go map write: bind the key, replacing any previous binding. -/
def mapSet {α : Type} (k : String) (v : α) (m : List (String × α)) : List (String × α) :=
  (k, v) :: mapDelete k m

/-- Embeds the server struct of main.go plus the reply channels of the
outstanding Collect calls, keyed by item id. -/
structure ServerState where
  queue : List QueueItem
  current : List (String × QueueItem)
  chans : List (String × ChanState)
deriving DecidableEq

/-- Embeds the maxPendingRequests constant of main.go (the admission bound
the spec calls max_inflight). -/
def maxPendingRequests : Nat := 1000

/-- Embeds the gRPC status codes used by errors.go and Collect. -/
inductive GrpcCode
  | invalidArgument
  | resourceExhausted
  | deadlineExceeded
  | cancelled
  | notFound
  | internal
deriving DecidableEq

/-- A gRPC status error as produced by the helpers in errors.go. -/
structure GrpcError where
  code : GrpcCode
  msg : String
deriving DecidableEq

/-- Embeds validationError of errors.go (the metrics side effect is not part
of the model). -/
def validationError (msg : String) : GrpcError :=
  { code := .invalidArgument, msg := msg }

/-- Embeds resourceExhaustedError of errors.go. -/
def resourceExhaustedError (resource : String) : GrpcError :=
  { code := .resourceExhausted, msg := resource ++ " limit exceeded" }

/-- Embeds timeoutError of errors.go. -/
def timeoutError (operation : String) : GrpcError :=
  { code := .deadlineExceeded, msg := operation ++ " timed out" }

/-- Embeds internalError of errors.go. -/
def internalError (e : String) : GrpcError :=
  { code := .internal, msg := "internal error: " ++ e }

/-- Queue.Remove as called by the deferred cleanup of Collect, which ignores
the returned error. -/
def removeNoErr (id : String) (q : List QueueItem) : List QueueItem :=
  match Queue.remove id q with
  | .ok q1 => q1
  | .error _ => q

/-- Embeds the synchronous prefix of collectorServer.Collect in main.go:
validate, admission control against maxPendingRequests, construction of the
QueueItem with a fresh uuid and a fresh capacity-1 reply channel, and the
enqueue. Returns the error (none = admitted, the call now suspends) and the
state after the step. -/
def collectAdmit (u : String) (req : Option RequestPB) (now : Nat) (s : ServerState) :
    Option GrpcError × ServerState :=
  match validate req with
  | .error e => (some (validationError ("invalid request: " ++ e)), s)
  | .ok _ =>
    if (Queue.status s.queue).total ≥ maxPendingRequests then
      (some (resourceExhaustedError "pending requests"), s)
    else
      let item : QueueItem := { id := u, request := req, addedAt := now, deferred := false }
      match Queue.enqueue item s.queue with
      | .error e => (some (internalError e), s)
      | .ok q1 =>
        (none, { s with queue := q1, chans := mapSet u ChanState.empty s.chans })

/-- Embeds the resCh arm of the select in Collect together with the deferred
cleanup: when the reply channel holds a value, Collect returns exactly that
value and the cleanup runs queue.Remove(u), ignoring its error. Returns none
when the channel arm is not enabled. -/
def collectFinishDelivered (u : String) (s : ServerState) :
    Option (ResponsePB × ServerState) :=
  match mapGet u s.chans with
  | some (.delivered v) => some (v, { s with queue := removeNoErr u s.queue })
  | _ => none

/-- Embeds the ctx.Done arm of the select in Collect together with the
deferred cleanup: return deadline_exceeded or cancelled according to the
reason, after running queue.Remove(u) and nothing else. -/
def collectFinishCancelled (u : String) (deadlineExceeded : Bool) (s : ServerState) :
    GrpcError × ServerState :=
  (if deadlineExceeded then timeoutError "collect"
   else { code := .cancelled, msg := "request cancelled" },
   { s with queue := removeNoErr u s.queue })

/-- Result of the handleData HTTP handler of handlers.go. -/
inductive TakeResult
  | timeout
  | invalid (e : String)
  | served (u : String) (req : Option RequestPB) (qs : QueueStatus)
deriving DecidableEq

/-- Embeds handleData of handlers.go: one successful GetNext attempt (a
failed attempt blocks until wake or deadline; the exhausted deadline is the
timeout result), re-validation of the taken item (a failure discards the
item), registration in the current map, and the queue status snapshot
rendered with the item. -/
def handleDataStep (s : ServerState) : TakeResult × ServerState :=
  match Queue.getNextAttempt s.queue with
  | .error _ => (.timeout, s)
  | .ok (item, q1) =>
    match validate item.request with
    | .error e => (.invalid e, { s with queue := q1 })
    | .ok _ =>
      let s1 : ServerState := { s with queue := q1, current := mapSet item.id item s.current }
      (.served item.id item.request (Queue.status s1.queue), s1)

/-- Result of the handleSubmit HTTP handler of handlers.go. -/
inductive SubmitResult
  | missingUuid
  | notFound
  | badJson
  | ok
deriving DecidableEq

/-- Embeds handleSubmit of handlers.go: an empty uuid is a 400; an id absent
from the current map is a 404; a present id is removed from the map before
the body is decoded; a protojson failure is a 400; otherwise the decoded
response is sent into the capacity-1 reply channel of the item and the
channel is closed. The body parameter is the protojson result: none stands
for a body that fails to decode. -/
def handleSubmit (u : String) (body : Option ResponsePB) (s : ServerState) :
    SubmitResult × ServerState :=
  if u = "" then (.missingUuid, s)
  else
    match mapGet u s.current with
    | none => (.notFound, s)
    | some item =>
      let s1 : ServerState := { s with current := mapDelete u s.current }
      match body with
      | none => (.badJson, s1)
      | some res =>
        (.ok, { s1 with chans := mapSet item.id (ChanState.delivered res) s1.chans })

/-- Result of the handleDefer HTTP handler of handlers.go. -/
inductive DeferResult
  | missingUuid
  | notFound (e : String)
  | next (r : TakeResult)
deriving DecidableEq

/-- Embeds handleDefer of handlers.go: an empty uuid is a 400; the id is
deleted from the current map before deferring; a Queue.Defer failure is a
404 carrying the queue error; on success the handler immediately serves the
next item through handleData. -/
def handleDefer (u : String) (s : ServerState) : DeferResult × ServerState :=
  if u = "" then (.missingUuid, s)
  else
    let s1 : ServerState := { s with current := mapDelete u s.current }
    match Queue.deferOp u s1.queue with
    | .error e => (.notFound e, s1)
    | .ok q1 =>
      let s2 : ServerState := { s1 with queue := q1 }
      let r := handleDataStep s2
      (.next r.1, r.2)

/-- Spec-side helper for stating C8: the hotkeys of the non-nil options in
order. -/
def optionHotkeys : List (Option OptionPB) → List String
  | [] => []
  | none :: rest => optionHotkeys rest
  | some opt :: rest => opt.hotkey :: optionHotkeys rest

/-! Concrete fixtures used by the witness theorems below. -/

/-- A minimal request that passes validate: a 1x1 grid with one int and a
two-option output schema. -/
def reqOK : RequestPB :=
  { inputs := [some { visualization := some (.grid (some { rows := 1, cols := 1 }))
                      data := some { data := some (.ints (some { values := [0] })) } }]
    output := some { output := some (.optionList (some { options :=
      [some { label := "A", hotkey := "a" }, some { label := "B", hotkey := "b" }] })) } }

/-- Queue item fixture carrying the valid request. -/
def itemX : QueueItem := { id := "X", request := some reqOK, addedAt := 0, deferred := false }

/-- Queue item fixture carrying the valid request. -/
def itemY : QueueItem := { id := "Y", request := some reqOK, addedAt := 1, deferred := false }

/-- Queue item fixture carrying the valid request. -/
def itemZ : QueueItem := { id := "Z", request := some reqOK, addedAt := 2, deferred := false }

/-- Response fixture: option index 1. -/
def resOne : ResponsePB := { output := some (.optionList (some { index := 1 })) }

/-- Queue item fixture already marked deferred. -/
def itemXDeferred : QueueItem := { id := "X", request := some reqOK, addedAt := 0, deferred := true }

/-- Queue item fixture named R, used in the cancellation scenario. -/
def itemR : QueueItem := { id := "R", request := some reqOK, addedAt := 0, deferred := false }

/-- Server state fixture: three active items X, Y, Z queued in that order,
nothing handed out. -/
def stateXYZ : ServerState := { queue := [itemX, itemY, itemZ], current := [], chans := [] }

/-- Server state fixture: item R already taken by an operator (it sits in the
current map, its reply channel still empty, the queue empty). -/
def stateRTaken : ServerState :=
  { queue := [], current := [("R", itemR)], chans := [("R", ChanState.empty)] }

/-! Helper lemmas about the queue operations. -/

/-- Structure of a successful Dequeue: the queue splits as a deferred prefix,
the returned item (not deferred), and a tail; the new queue is the old one
with exactly that item removed. -/
theorem dequeue_ok_decomp {q q' : List QueueItem} {it : QueueItem}
    (h : Queue.dequeue q = .ok (it, q')) :
    ∃ l₁ l₂, q = l₁ ++ it :: l₂ ∧ q' = l₁ ++ l₂ ∧
      (∀ x ∈ l₁, x.deferred = true) ∧ it.deferred = false := by
  induction q generalizing q' with
  | nil => simp [Queue.dequeue] at h
  | cons a rest ih =>
    rw [Queue.dequeue] at h
    split at h
    · split at h
      · next x rest1 hrest =>
          simp only [Except.ok.injEq, Prod.mk.injEq] at h
          obtain ⟨rfl, rfl⟩ := h
          obtain ⟨l₁, l₂, h1, h2, hall, hnd⟩ := ih hrest
          refine ⟨a :: l₁, l₂, by simp [h1], by simp [h2], ?_, hnd⟩
          intro y hy
          rcases List.mem_cons.mp hy with rfl | hy
          · assumption
          · exact hall y hy
      · simp at h
    · next hnd =>
        simp only [Except.ok.injEq, Prod.mk.injEq] at h
        obtain ⟨rfl, rfl⟩ := h
        exact ⟨[], rest, rfl, rfl, by simp, by simpa using hnd⟩

/-- Dequeue on a queue whose items are all deferred reports the queue as
empty. -/
theorem dequeue_all_deferred {q : List QueueItem}
    (h : ∀ x ∈ q, x.deferred = true) :
    Queue.dequeue q = .error "queue empty or all items deferred" := by
  induction q with
  | nil => rfl
  | cons a rest ih =>
    rw [Queue.dequeue]
    have ha : a.deferred = true := h a (List.mem_cons_self a rest)
    simp only [ha, if_true]
    rw [ih (fun x hx => h x (List.mem_cons_of_mem a hx))]

/-- Structure of a successful Defer: the queue splits at the first item with
the requested id; that item has its flag set and moves to the back. -/
theorem deferOp_ok_decomp {id : String} {q q' : List QueueItem}
    (h : Queue.deferOp id q = .ok q') :
    ∃ l₁ it l₂, q = l₁ ++ it :: l₂ ∧ it.id = id ∧ (∀ x ∈ l₁, x.id ≠ id) ∧
      q' = (l₁ ++ l₂) ++ [{ it with deferred := true }] := by
  induction q generalizing q' with
  | nil => simp [Queue.deferOp] at h
  | cons a rest ih =>
    rw [Queue.deferOp] at h
    split at h
    · next hid =>
        simp only [Except.ok.injEq] at h
        exact ⟨[], a, rest, rfl, hid, by simp, by simp [h.symm]⟩
    · next hid =>
        split at h
        · next q1 hrest =>
            simp only [Except.ok.injEq] at h
            obtain ⟨l₁, it, l₂, h1, h2, hall, h4⟩ := ih hrest
            refine ⟨a :: l₁, it, l₂, by simp [h1], h2, ?_, by simp [h.symm, h4]⟩
            intro y hy
            rcases List.mem_cons.mp hy with rfl | hy
            · exact hid
            · exact hall y hy
        · simp at h

/-- Structure of a successful Remove: the queue splits at the first item with
the requested id, which is unlinked. -/
theorem remove_ok_decomp {id : String} {q q' : List QueueItem}
    (h : Queue.remove id q = .ok q') :
    ∃ l₁ it l₂, q = l₁ ++ it :: l₂ ∧ it.id = id ∧ (∀ x ∈ l₁, x.id ≠ id) ∧
      q' = l₁ ++ l₂ := by
  induction q generalizing q' with
  | nil => simp [Queue.remove] at h
  | cons a rest ih =>
    rw [Queue.remove] at h
    split at h
    · next hid =>
        simp only [Except.ok.injEq] at h
        exact ⟨[], a, rest, rfl, hid, by simp, h.symm⟩
    · next hid =>
        split at h
        · next q1 hrest =>
            simp only [Except.ok.injEq] at h
            obtain ⟨l₁, it, l₂, h1, h2, hall, h4⟩ := ih hrest
            refine ⟨a :: l₁, it, l₂, by simp [h1], h2, ?_, by simp [h.symm, h4]⟩
            intro y hy
            rcases List.mem_cons.mp hy with rfl | hy
            · exact hid
            · exact hall y hy
        · simp at h

/-- A successful Enqueue appends the item at the tail; the item id was not
present before. -/
theorem enqueue_ok_decomp {item : QueueItem} {q q' : List QueueItem}
    (h : Queue.enqueue item q = .ok q') :
    q' = q ++ [item] ∧ ∀ x ∈ q, x.id ≠ item.id := by
  rw [Queue.enqueue] at h
  split at h
  · simp at h
  · next hdup =>
      simp only [Except.ok.injEq] at h
      refine ⟨h.symm, ?_⟩
      intro x hx hxid
      exact hdup (List.any_eq_true.mpr ⟨x, hx, by simp [hxid]⟩)

/-! Claim theorems. -/

/-- C3, counterexample: with a single deferred item in the queue, Dequeue
does not return that item; it reports the queue as empty (all items
deferred), contradicting the claim that the deferred item is returned once
it is the only item. -/
theorem c3_counterexample_single_deferred_item :
    Queue.dequeue [itemXDeferred] = .error "queue empty or all items deferred" ∧
    Queue.getNextAttempt [itemXDeferred] = .error "queue empty or all items deferred" := by
  constructor <;> rfl

/-- C3, amended: Dequeue never returns a deferred item under any
circumstances; whenever every item in the queue is deferred (in particular
when a deferred item is the only item), Dequeue and each GetNext attempt
fail with the queue-empty error, so the deferred item can never be taken
again. -/
theorem c3_all_deferred_never_dequeued (q : List QueueItem)
    (h : ∀ x ∈ q, x.deferred = true) :
    Queue.dequeue q = .error "queue empty or all items deferred" ∧
    Queue.getNextAttempt q = .error "queue empty or all items deferred" :=
  ⟨dequeue_all_deferred h, dequeue_all_deferred h⟩

/-- C3, witness for the amended theorem at the single deferred item. -/
theorem c3_witness :
    (∀ x ∈ [itemXDeferred], x.deferred = true) ∧
    (Queue.dequeue [itemXDeferred] = .error "queue empty or all items deferred" ∧
     Queue.getNextAttempt [itemXDeferred] = .error "queue empty or all items deferred") :=
  ⟨by decide, c3_all_deferred_never_dequeued [itemXDeferred] (by decide)⟩

/-- C4: a successful Dequeue returns the head of the non-deferred
subsequence at the moment of removal (every item ahead of it is deferred and
the item itself is not), and the resulting queue is the old queue with
exactly that one occurrence removed; the id map mirrors list membership, so
the id is unlinked with it. -/
theorem c4_dequeue_returns_head_of_nondeferred (q q' : List QueueItem) (it : QueueItem)
    (h : Queue.dequeue q = .ok (it, q')) :
    it.deferred = false ∧
    ∃ l₁ l₂, q = l₁ ++ it :: l₂ ∧ (∀ x ∈ l₁, x.deferred = true) ∧ q' = l₁ ++ l₂ := by
  obtain ⟨l₁, l₂, h1, h2, hall, hnd⟩ := dequeue_ok_decomp h
  exact ⟨hnd, l₁, l₂, h1, hall, h2⟩

/-- C4, witness: dequeuing past a deferred head returns the first
non-deferred item and removes exactly it. -/
theorem c4_witness :
    Queue.dequeue [itemXDeferred, itemY] = .ok (itemY, [itemXDeferred]) ∧
    (itemY.deferred = false ∧
     ∃ l₁ l₂, [itemXDeferred, itemY] = l₁ ++ itemY :: l₂ ∧
       (∀ x ∈ l₁, x.deferred = true) ∧ [itemXDeferred] = l₁ ++ l₂) :=
  ⟨by rfl, c4_dequeue_returns_head_of_nondeferred [itemXDeferred, itemY] [itemXDeferred] itemY (by rfl)⟩

/-- C7: Status returns a consistent snapshot: total is the number of items,
deferred counts the items whose flag is set, active counts the rest, and
active + deferred = total. -/
theorem c7_status_snapshot_consistent (q : List QueueItem) :
    (Queue.status q).active + (Queue.status q).deferred = (Queue.status q).total ∧
    (Queue.status q).total = q.length ∧
    (Queue.status q).deferred = q.countP (fun it => it.deferred) ∧
    (Queue.status q).active = q.countP (fun it => !it.deferred) := by
  refine ⟨?_, rfl, rfl, rfl⟩
  show q.countP (fun it => !it.deferred) + q.countP (fun it => it.deferred) = q.length
  induction q with
  | nil => rfl
  | cons a rest ih =>
    simp only [List.countP_cons, List.length_cons]
    by_cases hd : a.deferred <;> simp [hd] <;> omega

/-- C10: the deferred flag is monotone. Every queue operation other than
Defer carries items through unchanged as values (so none of Enqueue,
Dequeue, Remove, Clear, Status writes the flag), and Defer rewrites exactly
one item, setting its flag to true; hence an item marked deferred stays
deferred for as long as it exists. Status is a pure read and returns no
queue, and GetNext dequeues through Dequeue. -/
theorem c10_deferred_flag_monotone :
    (∀ item q q', Queue.enqueue item q = .ok q' →
      ∀ it ∈ q', it ∈ q ∨ it = item) ∧
    (∀ q it q', Queue.dequeue q = .ok (it, q') →
      it ∈ q ∧ ∀ it' ∈ q', it' ∈ q) ∧
    (∀ id q q', Queue.deferOp id q = .ok q' →
      ∀ it' ∈ q', it' ∈ q ∨ ∃ it ∈ q, it.id = id ∧ it' = { it with deferred := true }) ∧
    (∀ id q q', Queue.remove id q = .ok q' →
      ∀ it' ∈ q', it' ∈ q) ∧
    (∀ q, ∀ it' ∈ Queue.clear q, False) := by
  refine ⟨?_, ?_, ?_, ?_, ?_⟩
  · intro item q q' h it hit
    obtain ⟨rfl, -⟩ := enqueue_ok_decomp h
    rcases List.mem_append.mp hit with hq | hi
    · exact Or.inl hq
    · exact Or.inr (List.mem_singleton.mp hi)
  · intro q it q' h
    obtain ⟨l₁, l₂, rfl, rfl, -, -⟩ := dequeue_ok_decomp h
    constructor
    · simp
    · intro it' hit'
      rcases List.mem_append.mp hit' with h1 | h2
      · exact List.mem_append.mpr (Or.inl h1)
      · simp [h2]
  · intro id q q' h it' hit'
    obtain ⟨l₁, it, l₂, rfl, hid, -, rfl⟩ := deferOp_ok_decomp h
    rcases List.mem_append.mp hit' with h1 | h2
    · rcases List.mem_append.mp h1 with ha | hb
      · exact Or.inl (List.mem_append.mpr (Or.inl ha))
      · exact Or.inl (List.mem_append.mpr (Or.inr (List.mem_cons_of_mem _ hb)))
    · refine Or.inr ⟨it, by simp, hid, List.mem_singleton.mp h2⟩
  · intro id q q' h it' hit'
    obtain ⟨l₁, it, l₂, rfl, -, -, rfl⟩ := remove_ok_decomp h
    rcases List.mem_append.mp hit' with h1 | h2
    · exact List.mem_append.mpr (Or.inl h1)
    · simp [h2]
  · intro q it' hit'
    simp [Queue.clear] at hit'

/-- C10, witness: deferring Y in a queue holding deferred X and active Y
produces only items that come from the old queue unchanged or are the flag-set
copy of an item with id Y. -/
theorem c10_witness :
    Queue.deferOp "Y" [itemXDeferred, itemY]
      = .ok [itemXDeferred, { itemY with deferred := true }] ∧
    (∀ it' ∈ [itemXDeferred, { itemY with deferred := true }],
      it' ∈ [itemXDeferred, itemY] ∨
      ∃ it ∈ [itemXDeferred, itemY], it.id = "Y" ∧ it' = { it with deferred := true }) :=
  ⟨by rfl,
   c10_deferred_flag_monotone.2.2.1 "Y" [itemXDeferred, itemY]
     [itemXDeferred, { itemY with deferred := true }] (by rfl)⟩

/-- C1 (evaluation at the failing input): from queue [X, Y, Z], the operator
takes X (which moves X into the current map and leaves queue [Y, Z]); a
subsequent POST /defer/X then fails with the not-found error, the queue
stays [Y, Z] with no deferred X at the tail, and X is gone from the current
map as well. The claimed re-enqueue never happens because Dequeue already
unlinked X from the id map that Queue.Defer consults. -/
theorem c1_defer_after_take_returns_not_found :
    (handleDataStep stateXYZ).1 = .served "X" (some reqOK) (Queue.status [itemY, itemZ]) ∧
    (handleDataStep stateXYZ).2.queue = [itemY, itemZ] ∧
    (handleDataStep stateXYZ).2.current = [("X", itemX)] ∧
    (handleDefer "X" (handleDataStep stateXYZ).2).1 = .notFound "item not found: X" ∧
    (handleDefer "X" (handleDataStep stateXYZ).2).2.queue = [itemY, itemZ] ∧
    (handleDefer "X" (handleDataStep stateXYZ).2).2.current = [] :=
  ⟨by decide, by decide, by decide, by decide, by decide, by decide⟩

/-- C2, counterexample: with item R taken by an operator, a collect exit via
cancellation leaves R in the current map, so the subsequent submit for R
returns ok and writes the response into the reply channel; it does not
return the claimed not-found. -/
theorem c2_counterexample_submit_after_cancel_succeeds :
    (collectFinishCancelled "R" false stateRTaken).1
      = { code := .cancelled, msg := "request cancelled" } ∧
    (handleSubmit "R" (some resOne) (collectFinishCancelled "R" false stateRTaken).2).1
      = .ok ∧
    (handleSubmit "R" (some resOne) (collectFinishCancelled "R" false stateRTaken).2).1
      ≠ .notFound :=
  ⟨by decide, by decide, by decide⟩

/-- C2, amended: the cleanup on the cancelled exit path of Collect removes
the id from the Work Queue only; the In-Flight Registry entry survives, so a
subsequent submit for a taken-then-cancelled item succeeds (the decoded
response is delivered into the reply channel and discarded) while the caller
observed cancelled. -/
theorem c2_cancel_cleanup_leaves_registry (s : ServerState) (u : String) (item : QueueItem)
    (res : ResponsePB) (hu : u ≠ "") (hcur : mapGet u s.current = some item) :
    (collectFinishCancelled u false s).1 = { code := .cancelled, msg := "request cancelled" } ∧
    (collectFinishCancelled u false s).2.queue = removeNoErr u s.queue ∧
    (collectFinishCancelled u false s).2.current = s.current ∧
    (handleSubmit u (some res) (collectFinishCancelled u false s).2).1 = .ok := by
  refine ⟨rfl, rfl, rfl, ?_⟩
  simp [handleSubmit, hu, hcur, collectFinishCancelled]

/-- C2, witness for the amended theorem at the taken item R. -/
theorem c2_witness :
    (("R" : String) ≠ "" ∧ mapGet "R" stateRTaken.current = some itemR) ∧
    ((collectFinishCancelled "R" false stateRTaken).1
        = { code := .cancelled, msg := "request cancelled" } ∧
     (collectFinishCancelled "R" false stateRTaken).2.queue
        = removeNoErr "R" stateRTaken.queue ∧
     (collectFinishCancelled "R" false stateRTaken).2.current = stateRTaken.current ∧
     (handleSubmit "R" (some resOne) (collectFinishCancelled "R" false stateRTaken).2).1
        = .ok) :=
  ⟨⟨by decide, by decide⟩,
   c2_cancel_cleanup_leaves_registry stateRTaken "R" itemR resOne (by decide) (by decide)⟩

/-- C5: a submit for a held item returns ok and places the decoded response
in the capacity-1 reply channel of that item; the delivered arm of the
select in Collect then returns exactly that response value, unchanged, to
the caller. -/
theorem c5_collect_returns_submitted_response (s : ServerState) (u : String) (item : QueueItem)
    (res : ResponsePB) (hu : u ≠ "") (hcur : mapGet u s.current = some item)
    (hid : item.id = u) :
    (handleSubmit u (some res) s).1 = .ok ∧
    collectFinishDelivered u (handleSubmit u (some res) s).2 =
      some (res, { (handleSubmit u (some res) s).2 with
                   queue := removeNoErr u (handleSubmit u (some res) s).2.queue }) := by
  have hs : handleSubmit u (some res) s =
      (.ok, { s with current := mapDelete u s.current
                     chans := mapSet item.id (ChanState.delivered res) s.chans }) := by
    simp [handleSubmit, hu, hcur]
  rw [hs]
  refine ⟨rfl, ?_⟩
  simp [collectFinishDelivered, hid, mapGet, mapSet]

/-- C5, witness: submitting response index 1 for the taken item R hands
exactly that response back to the suspended caller. -/
theorem c5_witness :
    (("R" : String) ≠ "" ∧ mapGet "R" stateRTaken.current = some itemR ∧ itemR.id = "R") ∧
    ((handleSubmit "R" (some resOne) stateRTaken).1 = .ok ∧
     collectFinishDelivered "R" (handleSubmit "R" (some resOne) stateRTaken).2 =
       some (resOne, { (handleSubmit "R" (some resOne) stateRTaken).2 with
                       queue := removeNoErr "R"
                         (handleSubmit "R" (some resOne) stateRTaken).2.queue })) :=
  ⟨⟨by decide, by decide, by decide⟩,
   c5_collect_returns_submitted_response stateRTaken "R" itemR resOne
     (by decide) (by decide) (by decide)⟩

/-- C6: for a request that passes validation, whenever the queue status
snapshot at admission reports total at or above maxPendingRequests, Collect
returns the resource-exhausted error synchronously and the server state is
unchanged: nothing is enqueued and no admitted item is touched. -/
theorem c6_admission_overload_rejected (u : String) (req : Option RequestPB) (now : Nat)
    (s : ServerState) (hval : validate req = .ok ())
    (hfull : (Queue.status s.queue).total ≥ maxPendingRequests) :
    collectAdmit u req now s = (some (resourceExhaustedError "pending requests"), s) := by
  unfold collectAdmit
  rw [hval, if_pos hfull]

/-- A queue of 1000 copies of the item fixture meets the admission bound. -/
theorem replicate_1000_status_full :
    (Queue.status (List.replicate 1000 itemX)).total ≥ maxPendingRequests := by
  have h : (Queue.status (List.replicate 1000 itemX)).total = 1000 := by
    show (List.replicate 1000 itemX).length = 1000
    rw [List.length_replicate]
  rw [h]
  exact Nat.le_refl 1000

/-- C6, witness: with 1000 items in the queue, an additional valid collect
call is rejected with the resource-exhausted error and the state does not
change. -/
theorem c6_witness :
    (validate (some reqOK) = .ok () ∧
     (Queue.status (List.replicate 1000 itemX)).total ≥ maxPendingRequests) ∧
    collectAdmit "u" (some reqOK) 0
        { queue := List.replicate 1000 itemX, current := [], chans := [] }
      = (some (resourceExhaustedError "pending requests"),
         { queue := List.replicate 1000 itemX, current := [], chans := [] }) :=
  ⟨⟨by rfl, replicate_1000_status_full⟩,
   c6_admission_overload_rejected "u" (some reqOK) 0
     { queue := List.replicate 1000 itemX, current := [], chans := [] } (by rfl)
     replicate_1000_status_full⟩

/-- C9: validateGrid accepts a grid with rows R and cols C exactly when
1 ≤ R ≤ 100, 1 ≤ C ≤ 100, and the data block is present and carries exactly
R*C ints or R*C floats; in particular dimensions 1 and 100 pass the bounds
and 0 and 101 fail them. -/
theorem c9_grid_acceptance (rows cols : Int) (data : Option DataPB) :
    validateGrid (some { rows := rows, cols := cols }) data = .ok () ↔
      (1 ≤ rows ∧ rows ≤ 100 ∧ 1 ≤ cols ∧ cols ≤ 100 ∧
        ((∃ iv : IntsPB, data = some { data := some (.ints (some iv)) } ∧
            (iv.values.length : Int) = rows * cols) ∨
         (∃ fv : FloatsPB, data = some { data := some (.floats (some fv)) } ∧
            (fv.values.length : Int) = rows * cols))) := by
  unfold validateGrid
  dsimp only
  by_cases h1 : rows ≤ 0 ∨ cols ≤ 0
  · rw [if_pos h1]
    constructor
    · intro h; exact absurd h (by simp)
    · rintro ⟨hr1, hr2, hc1, hc2, -⟩
      exfalso; omega
  · rw [if_neg h1]
    by_cases h2 : rows > 100 ∨ cols > 100
    · rw [if_pos h2]
      constructor
      · intro h; exact absurd h (by simp)
      · rintro ⟨hr1, hr2, hc1, hc2, -⟩
        exfalso; omega
    · rw [if_neg h2]
      push_neg at h1 h2
      rcases data with - | ⟨- | (- | iv) | (- | fv)⟩
      · simp
      · simp
      · simp
      · dsimp only
        constructor
        · intro h
          by_cases hlen : (iv.values.length : Int) = rows * cols
          · exact ⟨by omega, by omega, by omega, by omega, Or.inl ⟨iv, rfl, hlen⟩⟩
          · rw [if_pos hlen] at h
            exact absurd h (by simp)
        · rintro ⟨-, -, -, -, hd | hd⟩
          · obtain ⟨iv2, heq, hlen⟩ := hd
            simp only [Option.some.injEq, DataPB.mk.injEq, DataOneof.ints.injEq] at heq
            subst heq
            rw [if_neg (fun hne => hne hlen)]
          · obtain ⟨fv2, heq, -⟩ := hd
            simp at heq
      · simp
      · dsimp only
        constructor
        · intro h
          by_cases hlen : (fv.values.length : Int) = rows * cols
          · exact ⟨by omega, by omega, by omega, by omega, Or.inr ⟨fv, rfl, hlen⟩⟩
          · rw [if_pos hlen] at h
            exact absurd h (by simp)
        · rintro ⟨-, -, -, -, hd | hd⟩
          · obtain ⟨iv2, heq, -⟩ := hd
            simp at heq
          · obtain ⟨fv2, heq, hlen⟩ := hd
            simp only [Option.some.injEq, DataPB.mk.injEq, DataOneof.floats.injEq] at heq
            subst heq
            rw [if_neg (fun hne => hne hlen)]

/-- Characterization of the option loop of validateOutputSchema: it accepts
exactly when every entry is a non-nil option with a non-empty label and a
one-byte hotkey, the hotkeys are pairwise distinct, and none of them is in
the already-seen set. -/
theorem validateOptions_ok_iff (opts : List (Option OptionPB)) (i : Nat) (seen : List String) :
    validateOptions opts i seen = .ok () ↔
      ((∀ o ∈ opts, ∃ opt, o = some opt ∧ opt.label ≠ "" ∧ opt.hotkey.utf8ByteSize = 1) ∧
       (optionHotkeys opts).Nodup ∧
       (∀ h ∈ optionHotkeys opts, h ∉ seen)) := by
  induction opts generalizing i seen with
  | nil => simp [validateOptions, optionHotkeys]
  | cons o rest ih =>
    cases o with
    | none => simp [validateOptions]
    | some opt =>
      rw [validateOptions]
      by_cases hl : opt.label = ""
      · rw [if_pos hl]
        constructor
        · intro h; exact absurd h (by simp)
        · rintro ⟨hC, -, -⟩
          obtain ⟨opt2, heq, hlab, -⟩ := hC (some opt) (List.mem_cons_self _ _)
          rw [Option.some.injEq] at heq
          exact absurd (heq ▸ hl) hlab
      · rw [if_neg hl]
        by_cases hk : opt.hotkey.utf8ByteSize = 1
        · rw [if_neg (fun hn => hn hk)]
          by_cases hc : opt.hotkey ∈ seen
          · rw [if_pos hc]
            constructor
            · intro h; exact absurd h (by simp)
            · rintro ⟨-, -, hT⟩
              exact absurd hc (hT opt.hotkey (by simp [optionHotkeys]))
          · rw [if_neg hc, ih]
            simp only [optionHotkeys, List.nodup_cons, List.forall_mem_cons]
            constructor
            · rintro ⟨hC, hN, hT⟩
              exact ⟨⟨⟨opt, rfl, hl, hk⟩, hC⟩,
                ⟨fun hmem => (hT opt.hotkey hmem) (List.mem_cons_self _ _), hN⟩,
                hc, fun h hh hs => (hT h hh) (List.mem_cons_of_mem _ hs)⟩
            · rintro ⟨⟨-, hC⟩, ⟨hnotin, hN⟩, -, hT⟩
              refine ⟨hC, hN, fun h hh hmem => ?_⟩
              rcases List.mem_cons.mp hmem with rfl | hs
              · exact hnotin hh
              · exact hT h hh hs
        · rw [if_pos hk]
          constructor
          · intro h; exact absurd h (by simp)
          · rintro ⟨hC, -, -⟩
            obtain ⟨opt2, heq, -, hone⟩ := hC (some opt) (List.mem_cons_self _ _)
            rw [Option.some.injEq] at heq
            exact absurd (heq ▸ hone) hk

/-- C8: validateOutputSchema accepts an option list exactly when it has at
least 2 options, every option is present with a non-empty label and a
hotkey of exactly one byte (hence exactly one character), and the hotkeys
are pairwise distinct; every violation, a list of fewer than 2 options, an
empty label, a hotkey of any other length, or a duplicated hotkey, is
rejected (the embedded error strings carry the index of the offending
option). -/
theorem c8_output_schema_acceptance (opts : List (Option OptionPB)) :
    validateOutputSchema (some { output := some (.optionList (some { options := opts })) })
        = .ok ()
      ↔ (2 ≤ opts.length ∧
         (∀ o ∈ opts, ∃ opt, o = some opt ∧ opt.label ≠ "" ∧ opt.hotkey.utf8ByteSize = 1) ∧
         (optionHotkeys opts).Nodup) := by
  unfold validateOutputSchema
  dsimp only
  by_cases hlen : opts.length < 2
  · rw [if_pos hlen]
    constructor
    · intro h; exact absurd h (by simp)
    · rintro ⟨h2, -⟩; exfalso; omega
  · rw [if_neg hlen, validateOptions_ok_iff]
    constructor
    · rintro ⟨hC, hN, -⟩; exact ⟨by omega, hC, hN⟩
    · rintro ⟨-, hC, hN⟩; exact ⟨hC, hN, by simp⟩

end Collector
